import Mathlib

/-!
Shallow embedding of the `unnecessary_box_returns` clippy lint
(src/clippy_lints/src/unnecessary_box_returns.rs) together with proofs of
the specified properties.

The host compiler's type system is abstracted as a small `Ty` model with
the three oracle operations the lint consumes (`is_box`, `boxed_ty`,
`is_sized`) and a rendering function.  The HIR-side data the lint pattern
matches on (`FnRetTy`, `FnDecl`, `ItemKind`, `Node`, trait/impl items) is
embedded structurally, and the `LateContext` is a record of the external
collaborators (`is_exported`, resolved `fn_sig` output, `get_parent`).
The lint's entry points, which take `&mut self` in the source, are
embedded in explicit state passing style, each returning the (unchanged)
rule state together with the optional diagnostic it emits.
-/

namespace UnnecessaryBoxReturnsLint

/-- Semantic (resolved) types, as seen through the oracle operations the
lint uses: a box wrapper, a nominal type with a known sized-ness, or a
trait object (always unsized). -/
inductive Ty where
  | box : Ty → Ty
  | named : String → Bool → Ty
  | dynTrait : String → Ty
deriving DecidableEq

/-- Embeds `Ty::is_box` of the host: true exactly for a box wrapper. -/
def Ty.is_box : Ty → Bool
  | .box _ => true
  | _ => false

/-- Embeds `Ty::boxed_ty`: the payload under a box wrapper.  The lint only
invokes it after `is_box` succeeded; on a non-box the value is irrelevant
and we return the type itself. -/
def Ty.boxed_ty : Ty → Ty
  | .box t => t
  | t => t

/-- Embeds the host's sized-ness predicate `Ty::is_sized`: a box is itself
sized, a nominal type carries its sized-ness, a trait object is unsized. -/
def Ty.is_sized : Ty → Bool
  | .box _ => true
  | .named _ s => s
  | .dynTrait _ => false

/-- Embeds the host's `Display` rendering of a type, used by the lint in
its message (via `format!`) and its suggestion (via `to_string`). -/
def Ty.render : Ty → String
  | .box t => "Box<" ++ t.render ++ ">"
  | .named n _ => n
  | .dynTrait n => "dyn " ++ n

/-- Embeds `rustc_hir::FnRetTy`: either the implicit (absent) return type,
or a written return type, of which the lint only uses the source span
(spans are plain numbers here). -/
inductive FnRetTy where
  | defaultReturn : FnRetTy
  | ret : Nat → FnRetTy
deriving DecidableEq

/-- Embeds `rustc_hir::FnDecl`, restricted to the one field the lint
reads: the declared output. -/
structure FnDecl where
  output : FnRetTy
deriving DecidableEq

/-- Embeds the fragment of `rustc_hir::ItemKind` the lint distinguishes: a
free function item (with its declaration), an impl block (with its
optional `of_trait`, here just the trait's name), and anything else. -/
inductive ItemKind where
  | fn : FnDecl → ItemKind
  | implBlock : Option String → ItemKind
  | other : ItemKind
deriving DecidableEq

/-- Embeds `rustc_hir::Item`: a kind plus the owner's definition id. -/
structure Item where
  kind : ItemKind
  def_id : Nat
deriving DecidableEq

/-- Embeds `rustc_hir::Node` as far as the lint's parent lookup needs:
either an item node or some other node. -/
inductive Node where
  | item : Item → Node
  | other : Node
deriving DecidableEq

/-- Embeds the fragment of `rustc_hir::TraitItemKind` the lint matches:
a method signature or anything else. -/
inductive TraitItemKind where
  | fn : FnDecl → TraitItemKind
  | other : TraitItemKind
deriving DecidableEq

/-- Embeds `rustc_hir::TraitItem`: kind plus owner definition id. -/
structure TraitItem where
  kind : TraitItemKind
  def_id : Nat
deriving DecidableEq

/-- Embeds the fragment of `rustc_hir::ImplItemKind` the lint matches. -/
inductive ImplItemKind where
  | fn : FnDecl → ImplItemKind
  | other : ImplItemKind
deriving DecidableEq

/-- Embeds `rustc_hir::ImplItem`: kind, the hir id used for the parent
lookup, and the owner definition id. -/
structure ImplItem where
  kind : ImplItemKind
  hir_id : Nat
  def_id : Nat
deriving DecidableEq

/-- Embeds the `LateContext` collaborators the lint queries:
`effective_visibilities.is_exported`, the resolved return type
`erase_late_bound_regions(fn_sig(def_id)).output()`, and
`tcx.hir().get_parent`. -/
structure Context where
  is_exported : Nat → Bool
  fn_sig_output : Nat → Ty
  get_parent : Nat → Node

/-- Embeds `rustc_errors::Applicability`. -/
inductive Applicability where
  | machineApplicable : Applicability
  | maybeIncorrect : Applicability
  | hasPlaceholders : Applicability
  | unspecified : Applicability
deriving DecidableEq

/-- A Finding: the diagnostic record the lint emits through
`span_lint_and_then`, with the lint span, message, the `span_suggestion`
fields (span, label, replacement text, applicability) and the `help`
note. -/
structure Finding where
  span : Nat
  message : String
  suggestion_span : Nat
  suggestion_label : String
  suggestion : String
  applicability : Applicability
  help : String
deriving DecidableEq

/-- The rule state: the single configuration field. -/
structure UnnecessaryBoxReturns where
  avoid_breaking_exported_api : Bool
deriving DecidableEq

/-- Embeds `UnnecessaryBoxReturns::new`. -/
def UnnecessaryBoxReturns.new (flag : Bool) : UnnecessaryBoxReturns :=
  { avoid_breaking_exported_api := flag }

/-- Embeds `UnnecessaryBoxReturns::check_fn_decl`.  The source takes
`&mut self`; here the (unchanged) state is returned alongside the
optional emitted diagnostic. -/
def check_fn_decl (self : UnnecessaryBoxReturns) (cx : Context) (decl : FnDecl)
    (def_id : Nat) : UnnecessaryBoxReturns × Option Finding :=
  if self.avoid_breaking_exported_api && cx.is_exported def_id then
    (self, none)
  else
    match decl.output with
    | FnRetTy.defaultReturn => (self, none)
    | FnRetTy.ret return_ty_hir_span =>
      let return_ty := cx.fn_sig_output def_id
      if !return_ty.is_box then (self, none)
      else
        let boxed_ty := return_ty.boxed_ty
        if boxed_ty.is_sized then
          (self, some
            { span := return_ty_hir_span
              message := "boxed return of the sized type `" ++ boxed_ty.render ++ "`"
              suggestion_span := return_ty_hir_span
              suggestion_label := "try"
              suggestion := boxed_ty.render
              applicability := Applicability.unspecified
              help := "changing this also requires a change to the return expressions in this function" })
        else (self, none)

/-- Embeds `check_trait_item`. -/
def check_trait_item (self : UnnecessaryBoxReturns) (cx : Context)
    (item : TraitItem) : UnnecessaryBoxReturns × Option Finding :=
  match item.kind with
  | TraitItemKind.fn signature => check_fn_decl self cx signature item.def_id
  | TraitItemKind.other => (self, none)

/-- Embeds `check_impl_item`: the parent of the impl item is looked up; if
it is not an item, or not an impl block, or an impl of a trait, the check
is suppressed. -/
def check_impl_item (self : UnnecessaryBoxReturns) (cx : Context)
    (item : ImplItem) : UnnecessaryBoxReturns × Option Finding :=
  match cx.get_parent item.hir_id with
  | Node.item parent =>
    match parent.kind with
    | ItemKind.implBlock of_trait =>
      if of_trait.isSome then (self, none)
      else
        match item.kind with
        | ImplItemKind.fn signature => check_fn_decl self cx signature item.def_id
        | ImplItemKind.other => (self, none)
    | _ => (self, none)
  | Node.other => (self, none)

/-- Embeds `check_item` (free functions). -/
def check_item (self : UnnecessaryBoxReturns) (cx : Context)
    (item : Item) : UnnecessaryBoxReturns × Option Finding :=
  match item.kind with
  | ItemKind.fn signature => check_fn_decl self cx signature item.def_id
  | _ => (self, none)

/-- One node handed to the rule by the host tree walk, tagged with which
of the three entry points receives it. -/
inductive CallableInput where
  | itemInput : Item → CallableInput
  | traitItemInput : TraitItem → CallableInput
  | implItemInput : ImplItem → CallableInput
deriving DecidableEq

/-- Dispatch of one traversal callback to the matching entry point. -/
def runRule (self : UnnecessaryBoxReturns) (cx : Context) :
    CallableInput → UnnecessaryBoxReturns × Option Finding
  | CallableInput.itemInput it => check_item self cx it
  | CallableInput.traitItemInput it => check_trait_item self cx it
  | CallableInput.implItemInput it => check_impl_item self cx it

/-- A whole run: the host walks a list of nodes, threading the rule state
through the callbacks, and collects the per-node diagnostics. -/
def runAll (self : UnnecessaryBoxReturns) (cx : Context) :
    List CallableInput → UnnecessaryBoxReturns × List (Option Finding)
  | [] => (self, [])
  | inp :: rest =>
    let r := runRule self cx inp
    let rest' := runAll r.1 cx rest
    (rest'.1, r.2 :: rest'.2)

/-- The function signature carried by an input, when it is a callable. -/
def CallableInput.sig : CallableInput → Option FnDecl
  | CallableInput.itemInput it =>
    match it.kind with
    | ItemKind.fn d => some d
    | _ => none
  | CallableInput.traitItemInput it =>
    match it.kind with
    | TraitItemKind.fn d => some d
    | TraitItemKind.other => none
  | CallableInput.implItemInput it =>
    match it.kind with
    | ImplItemKind.fn d => some d
    | ImplItemKind.other => none

/-- The owner definition id of an input. -/
def CallableInput.def_id : CallableInput → Nat
  | CallableInput.itemInput it => it.def_id
  | CallableInput.traitItemInput it => it.def_id
  | CallableInput.implItemInput it => it.def_id

/-- Whether the parent of an impl item resolves to an impl-block item. -/
def parentResolvesToImpl (cx : Context) (item : ImplItem) : Bool :=
  match cx.get_parent item.hir_id with
  | Node.item parent =>
    match parent.kind with
    | ItemKind.implBlock _ => true
    | _ => false
  | Node.other => false

/-- Well-formedness of the parent lookup for an input: for an impl item
the parent resolves to an impl block (as it always does in real HIR);
other inputs need no parent. -/
def parentOk (cx : Context) : CallableInput → Bool
  | CallableInput.implItemInput it => parentResolvesToImpl cx it
  | _ => true

/-- Whether the input is a method inside an impl block that implements a
named trait. -/
def isTraitImplMethod (cx : Context) : CallableInput → Bool
  | CallableInput.implItemInput it =>
    match cx.get_parent it.hir_id with
    | Node.item parent =>
      match parent.kind with
      | ItemKind.implBlock of_trait => of_trait.isSome
      | _ => false
    | Node.other => false
  | _ => false

/-- Helper for talking about the wording of diagnostic text: whether the
second character list occurs at the start of the first. -/
def leadsWith : List Char → List Char → Bool
  | _, [] => true
  | [], _ :: _ => false
  | a :: as, b :: bs => a == b && leadsWith as bs

/-- Whether the second character list occurs contiguously anywhere in the
first. -/
def mentionsChars : List Char → List Char → Bool
  | [], pat => pat.isEmpty
  | a :: as, pat => leadsWith (a :: as) pat || mentionsChars as pat

/-- Whether a string mentions a phrase (contains it as a substring). -/
def mentions (s pat : String) : Bool :=
  mentionsChars s.toList pat.toList

/-- Characterisation of the shared decision routine: `check_fn_decl`
emits a diagnostic exactly when the return type is written, the resolved
return type is a box, its payload is sized, and the export gate passes. -/
theorem check_fn_decl_isSome_iff (flag : Bool) (cx : Context) (d : FnDecl)
    (i : Nat) :
    ((check_fn_decl ⟨flag⟩ cx d i).2.isSome = true ↔
      ((∃ sp, d.output = FnRetTy.ret sp) ∧
       (cx.fn_sig_output i).is_box = true ∧
       ((cx.fn_sig_output i).boxed_ty).is_sized = true ∧
       (cx.is_exported i = false ∨ flag = false))) := by
  cases hf : flag <;> cases he : cx.is_exported i <;>
    cases hout : d.output <;>
      cases hb : (cx.fn_sig_output i).is_box <;>
        cases hs : ((cx.fn_sig_output i).boxed_ty).is_sized <;>
          simp [check_fn_decl, hf, he, hout, hb, hs]

/-- The decision routine never mutates the rule state. -/
theorem check_fn_decl_fst (s : UnnecessaryBoxReturns) (cx : Context)
    (d : FnDecl) (i : Nat) : (check_fn_decl s cx d i).1 = s := by
  cases hf : s.avoid_breaking_exported_api <;> cases he : cx.is_exported i <;>
    cases hout : d.output <;>
      cases hb : (cx.fn_sig_output i).is_box <;>
        cases hs : ((cx.fn_sig_output i).boxed_ty).is_sized <;>
          simp [check_fn_decl, hf, he, hout, hb, hs]

/-- Dispatch never mutates the rule state. -/
theorem runRule_fst (s : UnnecessaryBoxReturns) (cx : Context)
    (inp : CallableInput) : (runRule s cx inp).1 = s := by
  cases inp with
  | itemInput it =>
    cases hk : it.kind <;> simp [runRule, check_item, hk, check_fn_decl_fst]
  | traitItemInput it =>
    cases hk : it.kind <;>
      simp [runRule, check_trait_item, hk, check_fn_decl_fst]
  | implItemInput it =>
    cases hp : cx.get_parent it.hir_id with
    | item parent =>
      cases hpk : parent.kind with
      | implBlock oft =>
        cases oft with
        | none =>
          cases hk : it.kind <;>
            simp [runRule, check_impl_item, hp, hpk, hk, check_fn_decl_fst]
        | some tr => simp [runRule, check_impl_item, hp, hpk]
      | fn d => simp [runRule, check_impl_item, hp, hpk]
      | other => simp [runRule, check_impl_item, hp, hpk]
    | other => simp [runRule, check_impl_item, hp]

/-- A whole run never mutates the rule state. -/
theorem runAll_fst (cx : Context) :
    ∀ (l : List CallableInput) (s : UnnecessaryBoxReturns),
      (runAll s cx l).1 = s := by
  intro l
  induction l with
  | nil => intro s; rfl
  | cons a t ih => intro s; simp [runAll, ih, runRule_fst]

/-- Suppression of unsized payloads: when the resolved return type is a
box around an unsized payload, the decision routine emits nothing. -/
theorem check_fn_decl_unsized (s : UnnecessaryBoxReturns) (cx : Context)
    (d : FnDecl) (i : Nat) (p : Ty)
    (hty : cx.fn_sig_output i = Ty.box p) (hs : p.is_sized = false) :
    (check_fn_decl s cx d i).2 = none := by
  cases hg : (s.avoid_breaking_exported_api && cx.is_exported i) <;>
    cases hout : d.output <;>
      simp [check_fn_decl, hg, hout, hty, Ty.is_box, Ty.boxed_ty, hs]

/-- Suppression of implicit return types: when the declared output is
absent, the decision routine emits nothing. -/
theorem check_fn_decl_defaultReturn (s : UnnecessaryBoxReturns)
    (cx : Context) (d : FnDecl) (i : Nat)
    (hout : d.output = FnRetTy.defaultReturn) :
    (check_fn_decl s cx d i).2 = none := by
  cases hg : (s.avoid_breaking_exported_api && cx.is_exported i) <;>
    simp [check_fn_decl, hg, hout]

/-- Inversion on the decision routine: any emitted diagnostic is exactly
the record built in the sized-payload branch. -/
theorem check_fn_decl_some_spec (s : UnnecessaryBoxReturns) (cx : Context)
    (d : FnDecl) (i : Nat) (f : Finding)
    (h : (check_fn_decl s cx d i).2 = some f) :
    ∃ sp, d.output = FnRetTy.ret sp ∧
      f = { span := sp
            message := "boxed return of the sized type `" ++
              ((cx.fn_sig_output i).boxed_ty).render ++ "`"
            suggestion_span := sp
            suggestion_label := "try"
            suggestion := ((cx.fn_sig_output i).boxed_ty).render
            applicability := Applicability.unspecified
            help := "changing this also requires a change to the return expressions in this function" } := by
  cases hg : (s.avoid_breaking_exported_api && cx.is_exported i) with
  | true => simp [check_fn_decl, hg] at h
  | false =>
    cases hout : d.output with
    | defaultReturn => simp [check_fn_decl, hg, hout] at h
    | ret sp =>
      cases hb : (cx.fn_sig_output i).is_box with
      | false => simp [check_fn_decl, hg, hout, hb] at h
      | true =>
        cases hs : ((cx.fn_sig_output i).boxed_ty).is_sized with
        | false => simp [check_fn_decl, hg, hout, hb, hs] at h
        | true =>
          refine ⟨sp, rfl, ?_⟩
          simp [check_fn_decl, hg, hout, hb, hs] at h
          exact h.symm

/-- Inversion lifted to the dispatcher: any diagnostic emitted through
any entry point carries the callable's signature and is the record built
by the shared routine at the callable's definition id. -/
theorem runRule_some_spec (s : UnnecessaryBoxReturns) (cx : Context)
    (inp : CallableInput) (f : Finding)
    (h : (runRule s cx inp).2 = some f) :
    ∃ d sp, inp.sig = some d ∧ d.output = FnRetTy.ret sp ∧
      f = { span := sp
            message := "boxed return of the sized type `" ++
              ((cx.fn_sig_output inp.def_id).boxed_ty).render ++ "`"
            suggestion_span := sp
            suggestion_label := "try"
            suggestion := ((cx.fn_sig_output inp.def_id).boxed_ty).render
            applicability := Applicability.unspecified
            help := "changing this also requires a change to the return expressions in this function" } := by
  cases inp with
  | itemInput it =>
    cases hk : it.kind with
    | fn d0 =>
      simp only [runRule, check_item, hk] at h
      obtain ⟨sp, hout, hf⟩ := check_fn_decl_some_spec s cx d0 it.def_id f h
      exact ⟨d0, sp, by simp [CallableInput.sig, hk], hout, hf⟩
    | implBlock oft => simp [runRule, check_item, hk] at h
    | other => simp [runRule, check_item, hk] at h
  | traitItemInput it =>
    cases hk : it.kind with
    | fn d0 =>
      simp only [runRule, check_trait_item, hk] at h
      obtain ⟨sp, hout, hf⟩ := check_fn_decl_some_spec s cx d0 it.def_id f h
      exact ⟨d0, sp, by simp [CallableInput.sig, hk], hout, hf⟩
    | other => simp [runRule, check_trait_item, hk] at h
  | implItemInput it =>
    cases hp : cx.get_parent it.hir_id with
    | item parent =>
      cases hpk : parent.kind with
      | implBlock oft =>
        cases oft with
        | none =>
          cases hk : it.kind with
          | fn d0 =>
            simp only [runRule, check_impl_item, hp, hpk, Option.isSome_none,
              Bool.false_eq_true, if_false, hk] at h
            obtain ⟨sp, hout, hf⟩ := check_fn_decl_some_spec s cx d0 it.def_id f h
            exact ⟨d0, sp, by simp [CallableInput.sig, hk], hout, hf⟩
          | other => simp [runRule, check_impl_item, hp, hpk, hk] at h
        | some tr => simp [runRule, check_impl_item, hp, hpk] at h
      | fn d1 => simp [runRule, check_impl_item, hp, hpk] at h
      | other => simp [runRule, check_impl_item, hp, hpk] at h
    | other => simp [runRule, check_impl_item, hp] at h

/-- Characterisation of the dispatcher: for any input carrying a function
signature whose impl-item parent lookup resolves to an impl block, a
diagnostic is emitted exactly when the return type is written, the
resolved return type is a box with a sized payload, the export gate
passes, and the input is not a trait-implementing impl method. -/
theorem runRule_isSome_iff (flag : Bool) (cx : Context)
    (inp : CallableInput) (d : FnDecl)
    (hsig : inp.sig = some d) (hpar : parentOk cx inp = true) :
    ((runRule ⟨flag⟩ cx inp).2.isSome = true ↔
      ((∃ sp, d.output = FnRetTy.ret sp) ∧
       (cx.fn_sig_output inp.def_id).is_box = true ∧
       ((cx.fn_sig_output inp.def_id).boxed_ty).is_sized = true ∧
       (cx.is_exported inp.def_id = false ∨ flag = false) ∧
       isTraitImplMethod cx inp = false)) := by
  cases inp with
  | itemInput it =>
    cases hk : it.kind with
    | fn d0 =>
      have hd : d0 = d := by simpa [CallableInput.sig, hk] using hsig
      subst hd
      simp [runRule, check_item, hk, CallableInput.def_id, isTraitImplMethod,
        check_fn_decl_isSome_iff]
    | implBlock oft => simp [CallableInput.sig, hk] at hsig
    | other => simp [CallableInput.sig, hk] at hsig
  | traitItemInput it =>
    cases hk : it.kind with
    | fn d0 =>
      have hd : d0 = d := by simpa [CallableInput.sig, hk] using hsig
      subst hd
      simp [runRule, check_trait_item, hk, CallableInput.def_id,
        isTraitImplMethod, check_fn_decl_isSome_iff]
    | other => simp [CallableInput.sig, hk] at hsig
  | implItemInput it =>
    cases hk : it.kind with
    | fn d0 =>
      have hd : d0 = d := by simpa [CallableInput.sig, hk] using hsig
      subst hd
      cases hp : cx.get_parent it.hir_id with
      | item parent =>
        cases hpk : parent.kind with
        | implBlock oft =>
          cases oft with
          | none =>
            simp [runRule, check_impl_item, hp, hpk, hk,
              CallableInput.def_id, isTraitImplMethod,
              check_fn_decl_isSome_iff]
          | some tr =>
            simp [runRule, check_impl_item, hp, hpk,
              isTraitImplMethod]
        | fn d1 =>
          simp [parentOk, parentResolvesToImpl, hp, hpk] at hpar
        | other =>
          simp [parentOk, parentResolvesToImpl, hp, hpk] at hpar
      | other =>
        simp [parentOk, parentResolvesToImpl, hp] at hpar
    | other => simp [CallableInput.sig, hk] at hsig

/-- C1: for every callable signature handed to the rule (an input that
carries a function signature, with the impl-item parent lookup resolving
as it always does in real HIR), a Finding is produced if and only if the
return type is syntactically present, the resolved return type is a box
wrapper, the wrapped payload is sized, the callable is not exported or
the `avoid_breaking_exported_api` flag is false, and the callable is not
a method inside a trait-implementing impl block. -/
theorem finding_iff_qualifies (flag : Bool) (cx : Context)
    (inp : CallableInput) (d : FnDecl)
    (hsig : inp.sig = some d) (hpar : parentOk cx inp = true) :
    ((runRule ⟨flag⟩ cx inp).2.isSome = true ↔
      ((∃ sp, d.output = FnRetTy.ret sp) ∧
       (cx.fn_sig_output inp.def_id).is_box = true ∧
       ((cx.fn_sig_output inp.def_id).boxed_ty).is_sized = true ∧
       (cx.is_exported inp.def_id = false ∨ flag = false) ∧
       isTraitImplMethod cx inp = false)) :=
  runRule_isSome_iff flag cx inp d hsig hpar

/-- A concrete example declaration with a written return type at span 7. -/
def exDecl : FnDecl := { output := FnRetTy.ret 7 }

/-- A concrete example context: definition id 1 is exported, id 5 resolves
to a box around a trait object, id 6 to a plain non-box type, and every
other id to a box around the sized type `String`; hir id 10 has a
trait-implementing impl block as parent, 11 an inherent impl block, 12 a
non-item parent, 13 an item parent that is not an impl block. -/
def exCx : Context where
  is_exported := fun i => i == 1
  fn_sig_output := fun i =>
    if i == 5 then Ty.box (Ty.dynTrait "Error")
    else if i == 6 then Ty.named "String" true
    else Ty.box (Ty.named "String" true)
  get_parent := fun h =>
    if h == 10 then Node.item { kind := ItemKind.implBlock (some "Clone"), def_id := 100 }
    else if h == 11 then Node.item { kind := ItemKind.implBlock none, def_id := 101 }
    else if h == 13 then Node.item { kind := ItemKind.fn exDecl, def_id := 102 }
    else Node.other

/-- A concrete free-function input: non-exported, returns a boxed sized
type. -/
def exInp1 : CallableInput :=
  CallableInput.itemInput { kind := ItemKind.fn exDecl, def_id := 0 }

/-- The Finding the rule emits on `exInp1` in `exCx`. -/
def exFinding : Finding :=
  { span := 7
    message := "boxed return of the sized type `String`"
    suggestion_span := 7
    suggestion_label := "try"
    suggestion := "String"
    applicability := Applicability.unspecified
    help := "changing this also requires a change to the return expressions in this function" }

/-- C1 witness: the biconditional at a concrete non-exported free
function returning `Box<String>` with the flag off. -/
theorem finding_iff_qualifies_witness :
    exInp1.sig = some exDecl ∧ parentOk exCx exInp1 = true ∧
    ((runRule ⟨false⟩ exCx exInp1).2.isSome = true ↔
      ((∃ sp, exDecl.output = FnRetTy.ret sp) ∧
       (exCx.fn_sig_output exInp1.def_id).is_box = true ∧
       ((exCx.fn_sig_output exInp1.def_id).boxed_ty).is_sized = true ∧
       (exCx.is_exported exInp1.def_id = false ∨ false = false) ∧
       isTraitImplMethod exCx exInp1 = false)) :=
  ⟨by decide, by decide,
    finding_iff_qualifies false exCx exInp1 exDecl (by decide) (by decide)⟩

/-- C2: a qualifying method inside a trait-implementing impl block
produces no Finding; the identical signature as a trait-method
declaration produces a Finding; and the identical signature inside a bare
(inherent) impl block produces a Finding. -/
theorem trait_impl_suppressed (flag : Bool) (cx : Context) (d : FnDecl)
    (ti : TraitItem) (ii1 ii2 : ImplItem) (tr : String) (p1 p2 : Item)
    (hti : ti.kind = TraitItemKind.fn d)
    (_hii1 : ii1.kind = ImplItemKind.fn d)
    (hii2 : ii2.kind = ImplItemKind.fn d)
    (hp1 : cx.get_parent ii1.hir_id = Node.item p1)
    (hp1k : p1.kind = ItemKind.implBlock (some tr))
    (hp2 : cx.get_parent ii2.hir_id = Node.item p2)
    (hp2k : p2.kind = ItemKind.implBlock none)
    (hd : ∃ sp, d.output = FnRetTy.ret sp)
    (hqt : (cx.fn_sig_output ti.def_id).is_box = true ∧
           ((cx.fn_sig_output ti.def_id).boxed_ty).is_sized = true ∧
           (cx.is_exported ti.def_id = false ∨ flag = false))
    (_hq1 : (cx.fn_sig_output ii1.def_id).is_box = true ∧
           ((cx.fn_sig_output ii1.def_id).boxed_ty).is_sized = true ∧
           (cx.is_exported ii1.def_id = false ∨ flag = false))
    (hq2 : (cx.fn_sig_output ii2.def_id).is_box = true ∧
           ((cx.fn_sig_output ii2.def_id).boxed_ty).is_sized = true ∧
           (cx.is_exported ii2.def_id = false ∨ flag = false)) :
    (check_impl_item ⟨flag⟩ cx ii1).2 = none ∧
    (check_trait_item ⟨flag⟩ cx ti).2.isSome = true ∧
    (check_impl_item ⟨flag⟩ cx ii2).2.isSome = true := by
  refine ⟨?_, ?_, ?_⟩
  · simp [check_impl_item, hp1, hp1k]
  · have := (check_fn_decl_isSome_iff flag cx d ti.def_id).mpr
      ⟨hd, hqt.1, hqt.2.1, hqt.2.2⟩
    simpa [check_trait_item, hti] using this
  · have := (check_fn_decl_isSome_iff flag cx d ii2.def_id).mpr
      ⟨hd, hq2.1, hq2.2.1, hq2.2.2⟩
    simpa [check_impl_item, hp2, hp2k, hii2] using this

/-- C2 witness: a concrete qualifying signature, checked as a method of a
trait-implementing impl (hir parent 10), as a trait-method declaration,
and as a method of an inherent impl (hir parent 11). -/
theorem trait_impl_suppressed_witness :
    (check_impl_item ⟨false⟩ exCx ⟨ImplItemKind.fn exDecl, 10, 0⟩).2 = none ∧
    (check_trait_item ⟨false⟩ exCx ⟨TraitItemKind.fn exDecl, 0⟩).2.isSome = true ∧
    (check_impl_item ⟨false⟩ exCx ⟨ImplItemKind.fn exDecl, 11, 0⟩).2.isSome = true :=
  trait_impl_suppressed false exCx exDecl
    ⟨TraitItemKind.fn exDecl, 0⟩ ⟨ImplItemKind.fn exDecl, 10, 0⟩
    ⟨ImplItemKind.fn exDecl, 11, 0⟩ "Clone"
    { kind := ItemKind.implBlock (some "Clone"), def_id := 100 }
    { kind := ItemKind.implBlock none, def_id := 101 }
    (by decide) (by decide) (by decide) (by decide) (by decide)
    (by decide) (by decide) ⟨7, by decide⟩
    ⟨by decide, by decide, Or.inl (by decide)⟩
    ⟨by decide, by decide, Or.inl (by decide)⟩
    ⟨by decide, by decide, Or.inl (by decide)⟩

/-- C3: for every qualifying exported callable of any of the three kinds
(free function, trait-method declaration, non-trait impl method), the
flag being on suppresses the Finding while an identical qualifying
non-exported callable still produces one; with the flag off, the
qualifying exported callable does produce a Finding. -/
theorem exported_api_flag (cx : Context) (inp1 inp2 : CallableInput)
    (d1 d2 : FnDecl)
    (hsig1 : inp1.sig = some d1) (hsig2 : inp2.sig = some d2)
    (hpar1 : parentOk cx inp1 = true) (hpar2 : parentOk cx inp2 = true)
    (hti1 : isTraitImplMethod cx inp1 = false)
    (hti2 : isTraitImplMethod cx inp2 = false)
    (hd1 : ∃ sp, d1.output = FnRetTy.ret sp)
    (hd2 : ∃ sp, d2.output = FnRetTy.ret sp)
    (hb1 : (cx.fn_sig_output inp1.def_id).is_box = true)
    (hs1 : ((cx.fn_sig_output inp1.def_id).boxed_ty).is_sized = true)
    (hb2 : (cx.fn_sig_output inp2.def_id).is_box = true)
    (hs2 : ((cx.fn_sig_output inp2.def_id).boxed_ty).is_sized = true)
    (he1 : cx.is_exported inp1.def_id = true)
    (he2 : cx.is_exported inp2.def_id = false) :
    (runRule ⟨true⟩ cx inp1).2 = none ∧
    (runRule ⟨true⟩ cx inp2).2.isSome = true ∧
    (runRule ⟨false⟩ cx inp1).2.isSome = true := by
  refine ⟨?_, ?_, ?_⟩
  · cases hcase : (runRule ⟨true⟩ cx inp1).2 with
    | none => rfl
    | some f =>
      have hsome : (runRule ⟨true⟩ cx inp1).2.isSome = true := by
        rw [hcase]; rfl
      obtain ⟨_, _, _, hor, _⟩ :=
        (runRule_isSome_iff true cx inp1 d1 hsig1 hpar1).mp hsome
      rcases hor with h | h
      · rw [he1] at h; exact absurd h (by decide)
      · exact absurd h (by decide)
  · exact (runRule_isSome_iff true cx inp2 d2 hsig2 hpar2).mpr
      ⟨hd2, hb2, hs2, Or.inl he2, hti2⟩
  · exact (runRule_isSome_iff false cx inp1 d1 hsig1 hpar1).mpr
      ⟨hd1, hb1, hs1, Or.inr rfl, hti1⟩

/-- C3 witness: definition id 1 is exported and id 0 is not, both
resolving to `Box<String>`; the three conclusions are exercised for all
three callable kinds — a free function, a trait-method declaration, and a
method in an inherent impl block (hir parent 11). -/
theorem exported_api_flag_witness :
    exCx.is_exported 1 = true ∧ exCx.is_exported 0 = false ∧
    ((runRule ⟨true⟩ exCx (CallableInput.itemInput ⟨ItemKind.fn exDecl, 1⟩)).2 = none ∧
     (runRule ⟨true⟩ exCx (CallableInput.itemInput ⟨ItemKind.fn exDecl, 0⟩)).2.isSome = true ∧
     (runRule ⟨false⟩ exCx (CallableInput.itemInput ⟨ItemKind.fn exDecl, 1⟩)).2.isSome = true) ∧
    ((runRule ⟨true⟩ exCx (CallableInput.traitItemInput ⟨TraitItemKind.fn exDecl, 1⟩)).2 = none ∧
     (runRule ⟨true⟩ exCx (CallableInput.traitItemInput ⟨TraitItemKind.fn exDecl, 0⟩)).2.isSome = true ∧
     (runRule ⟨false⟩ exCx (CallableInput.traitItemInput ⟨TraitItemKind.fn exDecl, 1⟩)).2.isSome = true) ∧
    ((runRule ⟨true⟩ exCx (CallableInput.implItemInput ⟨ImplItemKind.fn exDecl, 11, 1⟩)).2 = none ∧
     (runRule ⟨true⟩ exCx (CallableInput.implItemInput ⟨ImplItemKind.fn exDecl, 11, 0⟩)).2.isSome = true ∧
     (runRule ⟨false⟩ exCx (CallableInput.implItemInput ⟨ImplItemKind.fn exDecl, 11, 1⟩)).2.isSome = true) :=
  ⟨by decide, by decide,
    exported_api_flag exCx
      (CallableInput.itemInput ⟨ItemKind.fn exDecl, 1⟩)
      (CallableInput.itemInput ⟨ItemKind.fn exDecl, 0⟩)
      exDecl exDecl (by decide) (by decide) (by decide) (by decide)
      (by decide) (by decide) ⟨7, by decide⟩ ⟨7, by decide⟩ (by decide)
      (by decide) (by decide) (by decide) (by decide) (by decide),
    exported_api_flag exCx
      (CallableInput.traitItemInput ⟨TraitItemKind.fn exDecl, 1⟩)
      (CallableInput.traitItemInput ⟨TraitItemKind.fn exDecl, 0⟩)
      exDecl exDecl (by decide) (by decide) (by decide) (by decide)
      (by decide) (by decide) ⟨7, by decide⟩ ⟨7, by decide⟩ (by decide)
      (by decide) (by decide) (by decide) (by decide) (by decide),
    exported_api_flag exCx
      (CallableInput.implItemInput ⟨ImplItemKind.fn exDecl, 11, 1⟩)
      (CallableInput.implItemInput ⟨ImplItemKind.fn exDecl, 11, 0⟩)
      exDecl exDecl (by decide) (by decide) (by decide) (by decide)
      (by decide) (by decide) ⟨7, by decide⟩ ⟨7, by decide⟩ (by decide)
      (by decide) (by decide) (by decide) (by decide) (by decide)⟩

/-- C4: for every callable whose resolved return type is a box around an
unsized payload, no Finding is produced through any entry point, whatever
the value of the configuration flag. -/
theorem unsized_payload_no_finding (flag : Bool) (cx : Context)
    (inp : CallableInput) (p : Ty)
    (hty : cx.fn_sig_output inp.def_id = Ty.box p)
    (hs : p.is_sized = false) :
    (runRule ⟨flag⟩ cx inp).2 = none := by
  cases inp with
  | itemInput it =>
    simp only [CallableInput.def_id] at hty
    cases hk : it.kind with
    | fn d0 =>
      simp only [runRule, check_item, hk]
      exact check_fn_decl_unsized ⟨flag⟩ cx d0 it.def_id p hty hs
    | implBlock oft => simp [runRule, check_item, hk]
    | other => simp [runRule, check_item, hk]
  | traitItemInput it =>
    simp only [CallableInput.def_id] at hty
    cases hk : it.kind with
    | fn d0 =>
      simp only [runRule, check_trait_item, hk]
      exact check_fn_decl_unsized ⟨flag⟩ cx d0 it.def_id p hty hs
    | other => simp [runRule, check_trait_item, hk]
  | implItemInput it =>
    simp only [CallableInput.def_id] at hty
    cases hp : cx.get_parent it.hir_id with
    | item parent =>
      cases hpk : parent.kind with
      | implBlock oft =>
        cases oft with
        | none =>
          cases hk : it.kind with
          | fn d0 =>
            simp only [runRule, check_impl_item, hp, hpk, Option.isSome_none,
              Bool.false_eq_true, if_false, hk]
            exact check_fn_decl_unsized ⟨flag⟩ cx d0 it.def_id p hty hs
          | other => simp [runRule, check_impl_item, hp, hpk, hk]
        | some tr => simp [runRule, check_impl_item, hp, hpk]
      | fn d1 => simp [runRule, check_impl_item, hp, hpk]
      | other => simp [runRule, check_impl_item, hp, hpk]
    | other => simp [runRule, check_impl_item, hp]

/-- C4 witness: a free function returning `Box<dyn Error>` (definition id
5) produces no Finding under either flag value. -/
theorem unsized_payload_no_finding_witness :
    exCx.fn_sig_output (CallableInput.itemInput ⟨ItemKind.fn exDecl, 5⟩).def_id
        = Ty.box (Ty.dynTrait "Error") ∧
    (Ty.dynTrait "Error").is_sized = false ∧
    (runRule ⟨true⟩ exCx (CallableInput.itemInput ⟨ItemKind.fn exDecl, 5⟩)).2 = none ∧
    (runRule ⟨false⟩ exCx (CallableInput.itemInput ⟨ItemKind.fn exDecl, 5⟩)).2 = none :=
  ⟨by decide, by decide,
    unsized_payload_no_finding true exCx
      (CallableInput.itemInput ⟨ItemKind.fn exDecl, 5⟩)
      (Ty.dynTrait "Error") (by decide) (by decide),
    unsized_payload_no_finding false exCx
      (CallableInput.itemInput ⟨ItemKind.fn exDecl, 5⟩)
      (Ty.dynTrait "Error") (by decide) (by decide)⟩

/-- C7: for every callable handed to the rule whose signature has no
explicit declared return type, no Finding is produced. -/
theorem implicit_return_no_finding (s : UnnecessaryBoxReturns)
    (cx : Context) (inp : CallableInput) (d : FnDecl)
    (hsig : inp.sig = some d) (hout : d.output = FnRetTy.defaultReturn) :
    (runRule s cx inp).2 = none := by
  cases inp with
  | itemInput it =>
    cases hk : it.kind with
    | fn d0 =>
      have hd : d0 = d := by simpa [CallableInput.sig, hk] using hsig
      subst hd
      simp only [runRule, check_item, hk]
      exact check_fn_decl_defaultReturn s cx d0 it.def_id hout
    | implBlock oft => simp [runRule, check_item, hk]
    | other => simp [runRule, check_item, hk]
  | traitItemInput it =>
    cases hk : it.kind with
    | fn d0 =>
      have hd : d0 = d := by simpa [CallableInput.sig, hk] using hsig
      subst hd
      simp only [runRule, check_trait_item, hk]
      exact check_fn_decl_defaultReturn s cx d0 it.def_id hout
    | other => simp [runRule, check_trait_item, hk]
  | implItemInput it =>
    cases hp : cx.get_parent it.hir_id with
    | item parent =>
      cases hpk : parent.kind with
      | implBlock oft =>
        cases oft with
        | none =>
          cases hk : it.kind with
          | fn d0 =>
            have hd : d0 = d := by simpa [CallableInput.sig, hk] using hsig
            subst hd
            simp only [runRule, check_impl_item, hp, hpk, Option.isSome_none,
              Bool.false_eq_true, if_false, hk]
            exact check_fn_decl_defaultReturn s cx d0 it.def_id hout
          | other => simp [runRule, check_impl_item, hp, hpk, hk]
        | some tr => simp [runRule, check_impl_item, hp, hpk]
      | fn d1 => simp [runRule, check_impl_item, hp, hpk]
      | other => simp [runRule, check_impl_item, hp, hpk]
    | other => simp [runRule, check_impl_item, hp]

/-- C7 witness: a free function with the implicit return type produces no
Finding even though its resolved return type is a boxed sized type. -/
theorem implicit_return_no_finding_witness :
    (CallableInput.itemInput
      ⟨ItemKind.fn { output := FnRetTy.defaultReturn }, 0⟩).sig
        = some { output := FnRetTy.defaultReturn } ∧
    (runRule ⟨false⟩ exCx (CallableInput.itemInput
      ⟨ItemKind.fn { output := FnRetTy.defaultReturn }, 0⟩)).2 = none :=
  ⟨by decide,
    implicit_return_no_finding ⟨false⟩ exCx
      (CallableInput.itemInput ⟨ItemKind.fn { output := FnRetTy.defaultReturn }, 0⟩)
      { output := FnRetTy.defaultReturn } (by decide) (by decide)⟩

/-- C8: when the parent of an impl item does not resolve to an impl-block
item, the impl-item entry point produces no Finding, whatever the context
and rule state (in particular even when the shared decision routine would
have emitted a diagnostic for that signature). -/
theorem unresolved_parent_fail_safe (s : UnnecessaryBoxReturns)
    (cx : Context) (item : ImplItem)
    (h : parentResolvesToImpl cx item = false) :
    (check_impl_item s cx item).2 = none := by
  cases hp : cx.get_parent item.hir_id with
  | item parent =>
    cases hpk : parent.kind with
    | implBlock oft => simp [parentResolvesToImpl, hp, hpk] at h
    | fn d => simp [check_impl_item, hp, hpk]
    | other => simp [check_impl_item, hp, hpk]
  | other => simp [check_impl_item, hp]

/-- C8 witness: two impl items whose signatures fully qualify, one with a
non-item parent (hir id 12) and one whose parent is an item but not an
impl block (hir id 13); neither produces a Finding. -/
theorem unresolved_parent_fail_safe_witness :
    parentResolvesToImpl exCx ⟨ImplItemKind.fn exDecl, 12, 0⟩ = false ∧
    parentResolvesToImpl exCx ⟨ImplItemKind.fn exDecl, 13, 0⟩ = false ∧
    (check_impl_item ⟨false⟩ exCx ⟨ImplItemKind.fn exDecl, 12, 0⟩).2 = none ∧
    (check_impl_item ⟨false⟩ exCx ⟨ImplItemKind.fn exDecl, 13, 0⟩).2 = none :=
  ⟨by decide, by decide,
    unresolved_parent_fail_safe ⟨false⟩ exCx
      ⟨ImplItemKind.fn exDecl, 12, 0⟩ (by decide),
    unresolved_parent_fail_safe ⟨false⟩ exCx
      ⟨ImplItemKind.fn exDecl, 13, 0⟩ (by decide)⟩

/-- C9: re-running the rule over the same program with the state left by
a first run reproduces the first run exactly — the rule carries no hidden
state between invocations or runs, so the Findings of the two runs are
identical. -/
theorem rerun_same_findings (s : UnnecessaryBoxReturns) (cx : Context)
    (prog : List CallableInput) :
    runAll (runAll s cx prog).1 cx prog = runAll s cx prog := by
  rw [runAll_fst]

/-- C10: the entry points and the shared decision routine, which take the
rule by mutable reference, leave the single configuration field with the
value it was given at construction. -/
theorem config_state_unchanged (flag : Bool) (cx : Context) (d : FnDecl)
    (i : Nat) (it : Item) (ti : TraitItem) (ii : ImplItem) :
    (check_fn_decl (UnnecessaryBoxReturns.new flag) cx d i).1.avoid_breaking_exported_api = flag ∧
    (check_item (UnnecessaryBoxReturns.new flag) cx it).1.avoid_breaking_exported_api = flag ∧
    (check_trait_item (UnnecessaryBoxReturns.new flag) cx ti).1.avoid_breaking_exported_api = flag ∧
    (check_impl_item (UnnecessaryBoxReturns.new flag) cx ii).1.avoid_breaking_exported_api = flag := by
  refine ⟨?_, ?_, ?_, ?_⟩
  · rw [check_fn_decl_fst]; rfl
  · have := runRule_fst (UnnecessaryBoxReturns.new flag) cx
      (CallableInput.itemInput it)
    simp only [runRule] at this
    rw [this]; rfl
  · have := runRule_fst (UnnecessaryBoxReturns.new flag) cx
      (CallableInput.traitItemInput ti)
    simp only [runRule] at this
    rw [this]; rfl
  · have := runRule_fst (UnnecessaryBoxReturns.new flag) cx
      (CallableInput.implItemInput ii)
    simp only [runRule] at this
    rw [this]; rfl

/-- C5 counterexample: the rule emits, for a concrete qualifying free
function, a Finding whose help note reads only that the function's return
expressions need changing — the note nowhere mentions callers or call
sites (no occurrence of "call", "caller" or "call site" in its text), so
the claim that every Finding's note states that call sites need updating
is false on this Finding. -/
theorem help_note_no_caller_mention :
    (runRule ⟨false⟩ exCx exInp1).2 = some exFinding ∧
    mentions exFinding.help "return expressions" = true ∧
    mentions exFinding.help "call" = false ∧
    mentions exFinding.help "caller" = false ∧
    mentions exFinding.help "call site" = false :=
  ⟨by decide, by decide, by decide, by decide, by decide⟩

/-- C5 (amended): every emitted Finding carries the help note "changing
this also requires a change to the return expressions in this function" —
it states that the callable's return expressions need updating along with
the signature change, but does not mention the callable's callers or call
sites (callers are acknowledged only by the non-machine-applicable fix
classification and a source comment). -/
theorem help_note_return_expressions (s : UnnecessaryBoxReturns)
    (cx : Context) (inp : CallableInput) (f : Finding)
    (h : (runRule s cx inp).2 = some f) :
    f.help = "changing this also requires a change to the return expressions in this function" ∧
    mentions f.help "return expressions" = true ∧
    mentions f.help "caller" = false ∧
    mentions f.help "call site" = false := by
  obtain ⟨d, sp, hsig, hout, hf⟩ := runRule_some_spec s cx inp f h
  subst hf
  exact ⟨rfl, rfl, rfl, rfl⟩

/-- C5 witness: the amended statement at the concrete Finding emitted for
`exInp1`. -/
theorem help_note_return_expressions_witness :
    (runRule ⟨false⟩ exCx exInp1).2 = some exFinding ∧
    (exFinding.help = "changing this also requires a change to the return expressions in this function" ∧
     mentions exFinding.help "return expressions" = true ∧
     mentions exFinding.help "caller" = false ∧
     mentions exFinding.help "call site" = false) :=
  ⟨by decide,
    help_note_return_expressions ⟨false⟩ exCx exInp1 exFinding (by decide)⟩

/-- C6: every emitted Finding is anchored at the span of the declared
return type, its message is "boxed return of the sized type `<payload>`"
with the payload's rendered name, its suggestion (at that same span) is
exactly the rendered payload type, and its fix classification is
Unspecified, which is not machine-applicable. -/
theorem finding_shape (s : UnnecessaryBoxReturns) (cx : Context)
    (inp : CallableInput) (f : Finding)
    (h : (runRule s cx inp).2 = some f) :
    ∃ d sp, inp.sig = some d ∧ d.output = FnRetTy.ret sp ∧
      f.span = sp ∧ f.suggestion_span = sp ∧
      f.message = "boxed return of the sized type `" ++
        ((cx.fn_sig_output inp.def_id).boxed_ty).render ++ "`" ∧
      f.suggestion = ((cx.fn_sig_output inp.def_id).boxed_ty).render ∧
      f.applicability = Applicability.unspecified ∧
      f.applicability ≠ Applicability.machineApplicable := by
  obtain ⟨d, sp, hsig, hout, hf⟩ := runRule_some_spec s cx inp f h
  subst hf
  exact ⟨d, sp, hsig, hout, rfl, rfl, rfl, rfl, rfl, fun hc => nomatch hc⟩

/-- C6 witness: the shape properties at the concrete Finding emitted for
`exInp1`, whose declared return type sits at span 7 and whose payload
renders as `String`. -/
theorem finding_shape_witness :
    (runRule ⟨false⟩ exCx exInp1).2 = some exFinding ∧
    (∃ d sp, exInp1.sig = some d ∧ d.output = FnRetTy.ret sp ∧
      exFinding.span = sp ∧ exFinding.suggestion_span = sp ∧
      exFinding.message = "boxed return of the sized type `" ++
        ((exCx.fn_sig_output exInp1.def_id).boxed_ty).render ++ "`" ∧
      exFinding.suggestion = ((exCx.fn_sig_output exInp1.def_id).boxed_ty).render ∧
      exFinding.applicability = Applicability.unspecified ∧
      exFinding.applicability ≠ Applicability.machineApplicable) :=
  ⟨by decide, finding_shape ⟨false⟩ exCx exInp1 exFinding (by decide)⟩

end UnnecessaryBoxReturnsLint
